import Mathlib

/-!
Shallow embedding of the irc-render repository (src/irc_render/) in Lean 4,
with theorems checking the natural-language specification against the code.

Modelling conventions:
* Python `float` arithmetic is modelled exactly over `ℚ` (every constant in the
  source is a short decimal, e.g. `1.4` becomes `7/5`).  The discrete branch
  decisions proved about never sit on a float-rounding boundary for the
  concrete inputs used.
* Python's unbounded `int` is `Nat`/`Int`.
* The ReportLab drawing surface is abstracted as a list of emitted drawing
  commands (`Cmd`) plus an abstract string-width capability
  `sw : String → ℚ → ℚ` (string, font size); font and fill-colour selection
  emit no geometric command and are not modelled.
* The network fetcher is abstracted as `String → Option (Nat × Nat)` returning
  the intrinsic pixel size of a successfully downloaded and decoded image, or
  `none` for any failure (network error, size violation, decode error).
* Regular expressions from `formatting.py` are compiled by hand into
  deterministic matching functions.  The relevant backtracking behaviour of
  Python's `re` on these five patterns is analysed case by case in the
  comments; `\d` is modelled as the ASCII digits and `\s` as the Unicode
  whitespace set, and `str.lower` is modelled on the ASCII range.
-/

/-- Models Python's whitespace test (used by `\s`, `str.split()`, `str.strip()`):
ASCII whitespace plus the Unicode whitespace code points. -/
def pySpace (c : Char) : Bool :=
  let n := c.toNat
  n == 32 || n == 9 || n == 10 || n == 13 || n == 11 || n == 12 ||
  (28 ≤ n && n ≤ 31) || n == 0x85 || n == 0xa0 || n == 0x1680 ||
  (0x2000 ≤ n && n ≤ 0x200a) || n == 0x2028 || n == 0x2029 ||
  n == 0x202f || n == 0x205f || n == 0x3000

/-- Models Python `str.strip()` on a char list. -/
def pyStripList (cs : List Char) : List Char :=
  ((cs.dropWhile pySpace).reverse.dropWhile pySpace).reverse

/-- Models Python `str.strip()`. -/
def pyStrip (s : String) : String := (pyStripList s.data).asString

/-- Fuelled worker for `pySplit`; the fuel is the length of the input, which is
enough because every step consumes at least one character. -/
def splitWordsF : Nat → List Char → List (List Char)
  | 0, _ => []
  | _, [] => []
  | fuel + 1, c :: rest =>
    if pySpace c then splitWordsF fuel rest
    else (c :: rest.takeWhile (fun d => !pySpace d)) ::
      splitWordsF fuel (rest.dropWhile (fun d => !pySpace d))

/-- Models Python `str.split()` with no arguments: split on whitespace runs,
dropping empty pieces. -/
def pySplit (s : String) : List String :=
  (splitWordsF s.data.length s.data).map List.asString

/-- Models Python `str.lower` on the ASCII range (the nicknames and the page
size selector compared in the source are ASCII). -/
def pyLowerChar (c : Char) : Char :=
  if c.toNat ≥ 65 && c.toNat ≤ 90 then Char.ofNat (c.toNat + 32) else c

/-- Models `line.rstrip("\n")`: remove all trailing newline characters. -/
def rstripNewlines (cs : List Char) : List Char :=
  (cs.reverse.dropWhile (fun c => c == '\n')).reverse

/-!  formatting.py: `strip_irc_formatting`  -/

/-- Length of the digit part of a mIRC colour code following `\x03`, as matched
by `re.sub(r"\x03(\d{1,2})(,\d{1,2})?", ...)`: one or two digits (greedy),
optionally followed by a comma and one or two digits.  Returns 0 when the
pattern does not match (no digit after the `\x03`). -/
def colorCodeLen (cs : List Char) : Nat :=
  match cs with
  | [] => 0
  | d1 :: rest =>
    if d1.isDigit then
      let n1 := match rest with
        | d2 :: _ => if d2.isDigit then 2 else 1
        | [] => 1
      let n2 := match cs.drop n1 with
        | ',' :: e1 :: r =>
          if e1.isDigit then
            (match r with
             | e2 :: _ => if e2.isDigit then 3 else 2
             | [] => 2)
          else 0
        | _ => 0
      n1 + n2
    else 0

/-- Fuelled scan removing mIRC colour codes, modelling the first `re.sub` of
`strip_irc_formatting`.  Fuel is the input length (each step consumes at least
one character). -/
def colorSubF : Nat → List Char → List Char
  | 0, cs => cs
  | fuel + 1, [] => (fun _ => []) fuel
  | fuel + 1, c :: rest =>
    if c = '\x03' then
      let n := colorCodeLen rest
      if n = 0 then c :: colorSubF fuel rest
      else colorSubF fuel (rest.drop n)
    else c :: colorSubF fuel rest

/-- Control characters removed by `strip_irc_formatting` after the colour-code
substitution: the named format toggles (\x02 \x1d \x1f \x0f \x11 \x16) and the
ranges \x00-\x08, \x0B-\x1A, \x1C-\x1F (whose union contains all six toggles). -/
def strippedCtrl (c : Char) : Bool :=
  let n := c.toNat
  n ≤ 8 || (11 ≤ n && n ≤ 26) || (28 ≤ n && n ≤ 31)

/-- Models `strip_irc_formatting`. -/
def stripIrc (cs : List Char) : List Char :=
  (colorSubF cs.length cs).filter (fun c => !strippedCtrl c)

/-!  formatting.py: the classifier data model  -/

/-- Models the `Kind` enum of formatting.py. -/
inductive Kind where
  | message
  | action
  | system
  | raw
deriving DecidableEq, Repr

/-- Models the `ParsedLine` dataclass of formatting.py. -/
structure ParsedLine where
  timestamp : Option String
  nick : Option String
  text : String
  kind : Kind
deriving DecidableEq, Repr

/-!  formatting.py: the five regex patterns, compiled by hand.

For each pattern the Python backtracking behaviour is deterministic on
newline-free input (`parse_line` strips trailing newlines and interior CR/LF
control bytes before matching, so `$` is simply end-of-input):

* `\s*` and `\s+` always commit to the maximal whitespace run, because the
  construct that follows them can never match a whitespace character;
* `\d{1,2}:` commits to two digits exactly when the third character is `:`,
  and to one digit exactly when the second is `:` (the two cases exclude each
  other);
* `(?::\d{2})?` commits to the seconds exactly when `:` plus two digits are
  present, because on failure of the continuation the no-seconds alternative
  sees the `:` and fails as well;
* `[^>]+>` commits to all characters up to the first `>`;
* `\S+` commits to the maximal non-whitespace run;
* `-{2,}` commits to the maximal dash run;
* the alternation of `PATTERN_SYS1` tries its five markers left to right,
  each with the full continuation.
-/

/-- Consume `\d{2}(?::\d{2})?` (minutes and optional seconds) after the hour
digits `h` and the first `:`; returns the matched time text and the rest. -/
def parseTimeMS (h : List Char) (cs : List Char) : Option (List Char × List Char) :=
  match cs with
  | m1 :: m2 :: rest =>
    if m1.isDigit && m2.isDigit then
      match rest with
      | ':' :: s1 :: s2 :: rest2 =>
        if s1.isDigit && s2.isDigit then some (h ++ [':', m1, m2, ':', s1, s2], rest2)
        else some (h ++ [':', m1, m2], rest)
      | _ => some (h ++ [':', m1, m2], rest)
    else none
  | _ => none

/-- Consume `\d{1,2}:\d{2}(?::\d{2})?`, returning the matched time text and the
rest of the input. -/
def parseTime (cs : List Char) : Option (List Char × List Char) :=
  match cs with
  | a :: rest1 =>
    if !a.isDigit then none
    else
      match rest1 with
      | b :: ':' :: rest2 =>
        if b.isDigit then parseTimeMS [a, b] rest2
        else match rest1 with
          | ':' :: r => parseTimeMS [a] r
          | _ => none
      | ':' :: rest2 => parseTimeMS [a] rest2
      | _ => none
  | [] => none

/-- Consume an optional single character `c` (models `\[?` and `\]?`). -/
def dropOpt (c : Char) (cs : List Char) : List Char :=
  match cs with
  | d :: rest => if d = c then rest else cs
  | [] => []

/-- Consume `\s+` (at least one whitespace character, maximal run). -/
def wsPlus (cs : List Char) : Option (List Char) :=
  match cs with
  | c :: _ => if pySpace c then some (cs.dropWhile pySpace) else none
  | [] => none

/-- Match `(.*)$` against newline-free input: succeeds exactly when no newline
remains (the dot cannot cross a newline and nothing may be left unmatched). -/
def tailNoNewline (cs : List Char) : Option String :=
  if cs.contains '\n' then none else some cs.asString

/-- Match `\s+(.*)$`. -/
def tailWsText (cs : List Char) : Option String :=
  match wsPlus cs with
  | some rest => tailNoNewline rest
  | none => none

/-- Match `<([^>]+)>`, returning the nick group and the rest. -/
def nickGroup (cs : List Char) : Option (List Char × List Char) :=
  match cs with
  | '<' :: rest =>
    let nick := rest.takeWhile (fun c => c != '>')
    if nick.isEmpty then none
    else
      match rest.drop nick.length with
      | '>' :: rest2 => some (nick, rest2)
      | _ => none
  | _ => none

/-- Models `PATTERN1 = ^\s*\[?(\d{1,2}:\d{2}(?::\d{2})?)\]?\s+<([^>]+)>\s+(.*)$`,
returning (timestamp, nick, text). -/
def pat1Match (cs : List Char) : Option (String × String × String) :=
  let cs1 := dropOpt '[' (cs.dropWhile pySpace)
  match parseTime cs1 with
  | none => none
  | some (t, rest) =>
    match wsPlus (dropOpt ']' rest) with
    | none => none
    | some rest2 =>
      match nickGroup rest2 with
      | none => none
      | some (nick, rest3) =>
        match tailWsText rest3 with
        | none => none
        | some txt => some (t.asString, nick.asString, txt)

/-- Consume `\d{4}-\d{2}-\d{2}`. -/
def dateMatch (cs : List Char) : Option (List Char) :=
  match cs with
  | a1 :: a2 :: a3 :: a4 :: '-' :: b1 :: b2 :: '-' :: c1 :: c2 :: rest =>
    if a1.isDigit && a2.isDigit && a3.isDigit && a4.isDigit &&
       b1.isDigit && b2.isDigit && c1.isDigit && c2.isDigit
    then some rest else none
  | _ => none

/-- Models `PATTERN2 = ^\s*\d{4}-\d{2}-\d{2}\s+(time)\s+<([^>]+)>\s+(.*)$`. -/
def pat2Match (cs : List Char) : Option (String × String × String) :=
  match dateMatch (cs.dropWhile pySpace) with
  | none => none
  | some rest =>
    match wsPlus rest with
    | none => none
    | some rest1 =>
      match parseTime rest1 with
      | none => none
      | some (t, rest2) =>
        match wsPlus rest2 with
        | none => none
        | some rest3 =>
          match nickGroup rest3 with
          | none => none
          | some (nick, rest4) =>
            match tailWsText rest4 with
            | none => none
            | some txt => some (t.asString, nick.asString, txt)

/-- Models `PATTERN3 = ^\s*\[?(time)\]?\s+\*\s+(\S+)\s+(.*)$`. -/
def pat3Match (cs : List Char) : Option (String × String × String) :=
  let cs1 := dropOpt '[' (cs.dropWhile pySpace)
  match parseTime cs1 with
  | none => none
  | some (t, rest) =>
    match wsPlus (dropOpt ']' rest) with
    | none => none
    | some rest2 =>
      match rest2 with
      | '*' :: rest3 =>
        match wsPlus rest3 with
        | none => none
        | some rest4 =>
          let nick := rest4.takeWhile (fun c => !pySpace c)
          if nick.isEmpty then none
          else
            match tailWsText (rest4.drop nick.length) with
            | none => none
            | some txt => some (t.asString, nick.asString, txt)
      | _ => none

/-- The five alternatives of `PATTERN_SYS1`, in the order Python tries them. -/
def sysMarkers : List (List Char) :=
  ["***".data, "-->".data, "<--".data, "—>".data, "<-".data]

/-- Models `PATTERN_SYS1 = ^\s*(?:\*\*\*|-->|<--|EMDASH>|<-)\s+(.*)$`. -/
def sys1Match (cs : List Char) : Option String :=
  let cs1 := cs.dropWhile pySpace
  (sysMarkers.filterMap (fun m =>
    if cs1.take m.length = m then tailWsText (cs1.drop m.length) else none)).head?

/-- Models `PATTERN_SYS2 = ^\s*-{2,}\s+(.*)$`. -/
def sys2Match (cs : List Char) : Option String :=
  let cs1 := cs.dropWhile pySpace
  let dashes := cs1.takeWhile (fun c => c == '-')
  if dashes.length < 2 then none else tailWsText (cs1.drop dashes.length)

/-- Models the bare form `^\s*<([^>]+)>\s+(.*)$` tried inline in `parse_line`. -/
def bareMatch (cs : List Char) : Option (String × String) :=
  match nickGroup (cs.dropWhile pySpace) with
  | none => none
  | some (nick, rest) =>
    match tailWsText rest with
    | none => none
    | some txt => some (nick.asString, txt)

/-- The stripped input on which `parse_line` runs its patterns:
`strip_irc_formatting(line.rstrip("\n"))`. -/
def rawOf (line : String) : List Char := stripIrc (rstripNewlines line.data)

/-- Models `parse_line` of formatting.py: try PATTERN2, PATTERN1, PATTERN3,
then `PATTERN_SYS1.match(raw) or PATTERN_SYS2.match(raw)`, then the bare
`<author>` form, else fall back to a raw line. -/
def parse_line (line : String) : ParsedLine :=
  let raw := rawOf line
  match pat2Match raw with
  | some (t, n, x) => ⟨some t, some n, x, Kind.message⟩
  | none =>
    match pat1Match raw with
    | some (t, n, x) => ⟨some t, some n, x, Kind.message⟩
    | none =>
      match pat3Match raw with
      | some (t, n, x) => ⟨some t, some n, x, Kind.action⟩
      | none =>
        match (sys1Match raw).orElse (fun _ => sys2Match raw) with
        | some x => ⟨none, none, x, Kind.system⟩
        | none =>
          match bareMatch raw with
          | some (n, x) => ⟨none, some n, x, Kind.message⟩
          | none => ⟨none, none, raw.asString, Kind.raw⟩

/-!  colors.py: `nick_to_rgb`  -/

/-- The djb2-style rolling hash of `nick_to_rgb`:
`h = 5381; h = ((h << 5) + h) + ord(ch)` over the characters, with Python's
unbounded integers. -/
def djb2 (cs : List Char) : Nat :=
  cs.foldl (fun h c => h * 33 + c.toNat) 5381

/-- Hue in `[0, 1)` computed by `nick_to_rgb`: `(hash(nick.lower()) % 360) / 360`. -/
def nickHue (nick : String) : ℚ :=
  ((djb2 (nick.data.map pyLowerChar)) % 360 : ℕ) / 360

/-- Saturation and value chosen by `nick_to_rgb`: `(0.55, 0.75)` by default,
reduced to `(0.4, 0.7)` when `45/360 <= hue <= 70/360`. -/
def nickSV (nick : String) : ℚ × ℚ :=
  if 45 / 360 ≤ nickHue nick ∧ nickHue nick ≤ 70 / 360 then (2/5, 7/10)
  else (11/20, 3/4)

/-- The hexagonal HSV-to-RGB conversion at the end of `nick_to_rgb`
(`int()` truncation coincides with the floor since the hue is nonnegative). -/
def hsvToRgb (hue s v : ℚ) : ℚ × ℚ × ℚ :=
  let i : ℤ := ⌊hue * 6⌋
  let f : ℚ := hue * 6 - i
  let p := v * (1 - s)
  let q := v * (1 - f * s)
  let t := v * (1 - (1 - f) * s)
  let j := i % 6
  if j = 0 then (v, t, p)
  else if j = 1 then (q, v, p)
  else if j = 2 then (p, v, t)
  else if j = 3 then (p, q, v)
  else if j = 4 then (t, p, v)
  else (v, p, q)

/-- Models `nick_to_rgb` of colors.py. -/
def nick_to_rgb (nick : String) : ℚ × ℚ × ℚ :=
  hsvToRgb (nickHue nick) (nickSV nick).1 (nickSV nick).2

/-!  images.py  -/

/-- Length of the match of `https?://\S+` at the start of the input, if any:
the literal scheme, then the maximal non-whitespace run (at least one
character). -/
def urlMatchLen (cs : List Char) : Option Nat :=
  if cs.take 8 = "https://".data then
    let n := ((cs.drop 8).takeWhile (fun c => !pySpace c)).length
    if n = 0 then none else some (8 + n)
  else if cs.take 7 = "http://".data then
    let n := ((cs.drop 7).takeWhile (fun c => !pySpace c)).length
    if n = 0 then none else some (7 + n)
  else none

/-- Fuelled worker modelling `URL_RE.split(text)` with the one capture group:
the non-matching gaps interleaved with the matched URLs (gaps at the edges may
be empty, as in Python).  Fuel is the input length. -/
def urlSplitF : Nat → List Char → List Char → List String
  | 0, acc, cs => [(acc.reverse ++ cs).asString]
  | _ + 1, acc, [] => [acc.reverse.asString]
  | fuel + 1, acc, c :: rest =>
    match urlMatchLen (c :: rest) with
    | some n =>
      acc.reverse.asString :: ((c :: rest).take n).asString ::
        urlSplitF fuel [] ((c :: rest).drop n)
    | none => urlSplitF fuel (c :: acc) rest

/-- Models `URL_RE.split(text)`. -/
def urlSplit (s : String) : List String := urlSplitF s.data.length [] s.data

/-- Models `URL_RE.fullmatch(tok)` as a boolean: the URL pattern must consume
the whole token. -/
def isFullUrl (s : String) : Bool :=
  match urlMatchLen s.data with
  | some n => n == s.data.length
  | none => false

/-- Models `urlparse(url).path` for the `http(s)` URLs this program feeds it:
drop the fragment (first `#`), the scheme (through the first `:`), the netloc
(after `//`, up to the next `/` or `?`), stop the path at the first `?`, and
strip the `;params` suffix of the last path segment. -/
def urlPath (u : String) : List Char :=
  let cs := u.data.takeWhile (fun c => c != '#')
  let afterColon := (cs.dropWhile (fun c => c != ':')).drop 1
  let rest :=
    if afterColon.take 2 = ['/', '/'] then
      let after2 := afterColon.drop 2
      after2.drop ((after2.takeWhile (fun c => c != '/' && c != '?')).length)
    else afterColon
  let p := rest.takeWhile (fun c => c != '?')
  let seg := (p.reverse.takeWhile (fun c => c != '/')).reverse
  p.take (p.length - seg.length) ++ seg.takeWhile (fun c => c != ';')

/-- The extension allow-list `IMAGE_EXTS` of images.py. -/
def imageExts : List String :=
  [".png", ".jpg", ".jpeg", ".gif", ".webp", ".bmp", ".tif", ".tiff"]

/-- Models `looks_like_image_url`. -/
def looksLikeImageUrl (u : String) : Bool :=
  let p := (urlPath u).map pyLowerChar
  imageExts.any (fun e => e.data.isSuffixOf p)

/-- Observable outcome of the HTTP request made by `download_image_bytes`:
either some exception was raised (network error, bad status, malformed
Content-Length header, ...) or a response arrived with an optional parsed
Content-Length header and a body. -/
inductive FetchOutcome where
  | err
  | ok (contentLength : Option Nat) (body : List Nat)
deriving DecidableEq, Repr

/-- Models `download_image_bytes` of images.py over a `FetchOutcome`:
abandon if the advertised Content-Length exceeds the cap, read at most
`max_bytes + 1` bytes, abandon if more than `max_bytes` arrived, and map any
exception to `none`.  (`resp.read(n)` is modelled as returning
`min(n, len(body))` bytes.) -/
def download_image_bytes (outcome : FetchOutcome) (maxBytes : Nat) : Option (List Nat) :=
  match outcome with
  | .err => none
  | .ok cl body =>
    let clBad : Bool := match cl with
      | some n => decide (maxBytes < n)
      | none => false
    if clBad then none
    else
      let data := body.take (maxBytes + 1)
      if maxBytes < data.length then none else some data

/-!  pdf.py: the abstract drawing surface and the renderer state  -/

/-- Geometric drawing commands emitted to the abstract surface.  Font and
fill-colour selection have no geometry and are not recorded. -/
inductive Cmd where
  | drawString (x y : ℚ) (s : String)
  | drawRightString (x y : ℚ) (s : String)
  | drawImage (x y w h : ℚ)
  | linkURL (url : String) (x1 y1 x2 y2 : ℚ)
  | showPage
deriving DecidableEq, Repr

/-- Models the `RenderConfig` dataclass of pdf.py (the integer fields are
embedded into `ℚ`, where all the layout arithmetic happens). -/
structure RenderConfig where
  title : String
  page_size_name : String
  font_size : ℚ
  margin : ℚ
  max_image_width_pt : ℚ
  max_image_height_pt : ℚ
deriving DecidableEq, Repr

/-- A render session: the configuration plus the two injected capabilities,
string-width measurement (string, font size) and the image fetcher (URL to
intrinsic pixel size, `none` on any download or decode failure). -/
structure Ctx where
  cfg : RenderConfig
  sw : String → ℚ → ℚ
  fetcher : String → Option (Nat × Nat)

/-- Page width: `letter` is 612 pt, otherwise A4, whose exact width in points
is `210 * 72 / 25.4 = 75600/127` (the lower-case comparison is done on the
character list). -/
def Ctx.pageW (k : Ctx) : ℚ :=
  if k.cfg.page_size_name.data.map pyLowerChar = "letter".data then 612 else 75600 / 127

/-- Page height: `letter` is 792 pt, otherwise A4 (`297 * 72 / 25.4`). -/
def Ctx.pageH (k : Ctx) : ℚ :=
  if k.cfg.page_size_name.data.map pyLowerChar = "letter".data then 792 else 106920 / 127

/-- Left content bound (`self.left = config.margin`). -/
def Ctx.left (k : Ctx) : ℚ := k.cfg.margin

/-- Right content bound (`self.right = self.width - config.margin`). -/
def Ctx.right (k : Ctx) : ℚ := k.pageW - k.cfg.margin

/-- Top content bound (`self.top = self.height - config.margin`). -/
def Ctx.top (k : Ctx) : ℚ := k.pageH - k.cfg.margin

/-- Bottom content bound (`self.bottom = config.margin`). -/
def Ctx.bottom (k : Ctx) : ℚ := k.cfg.margin

/-- Reserved timestamp column width
(`stringWidth("[00:00] ") * 1.1`). -/
def Ctx.tsWidth (k : Ctx) : ℚ := k.sw "[00:00] " k.cfg.font_size * (11/10)

/-- Cursor position right after a page header is drawn
(`self.y = self.top; self.y -= (font_size + 8) * 1.6`). -/
def Ctx.contentTop (k : Ctx) : ℚ := k.top - (k.cfg.font_size + 8) * (8/5)

/-- The cap applied when the nick column grows
(`max_possible = self.right - self.left - self.ts_width - 50`). -/
def Ctx.nickCap (k : Ctx) : ℚ := k.right - k.left - k.tsWidth - 50

/-- Mutable session state of `PDFRenderer`: cursor, page counter, the widest
nick label seen so far, and the drawing commands emitted so far. -/
structure RState where
  y : ℚ
  page_num : Nat
  max_nick_width : ℚ
  cmds : List Cmd

/-- State after `PDFRenderer.__init__`: layout metrics set, cursor at the top,
and the first page header drawn (`_draw_page_header`). -/
def initState (k : Ctx) : RState :=
  { y := k.contentTop
    page_num := 1
    max_nick_width := k.sw "<nick> " k.cfg.font_size
    cmds := [Cmd.drawString k.left k.top k.cfg.title] }

/-- Models `_finish_page_footer`: right-aligned "Page N" at `y = bottom / 2`. -/
def finishPageFooter (k : Ctx) (st : RState) : RState :=
  { st with cmds := st.cmds ++
      [Cmd.drawRightString k.right (k.bottom / 2) ("Page " ++ toString st.page_num)] }

/-- Models `_new_page`: flush the page, bump the counter, reset the cursor to
the top and redraw the header. -/
def newPage (k : Ctx) (st : RState) : RState :=
  { st with
    page_num := st.page_num + 1
    y := k.contentTop
    cmds := st.cmds ++ [Cmd.showPage, Cmd.drawString k.left k.top k.cfg.title] }

/-- Models `_maybe_new_page`: break the page when fewer than two font-size
heights remain above the bottom bound. -/
def maybeNewPage (k : Ctx) (st : RState) : RState :=
  if st.y < k.bottom + 2 * k.cfg.font_size then newPage k (finishPageFooter k st) else st

/-- Models `_ensure_space`. -/
def ensureSpace (k : Ctx) (hNeeded : ℚ) (st : RState) : RState :=
  if st.y < k.bottom + hNeeded then newPage k (finishPageFooter k st) else st

/-- Python truthiness of an optional string (`if pl.nick:`). -/
def optTruthy : Option String → Bool
  | none => false
  | some s => !(s == "")

/-- Models `_update_nick_width`: grow the nick column when a wider
`<nick> ` label appears, capped at `nickCap`. -/
def updateNickWidth (k : Ctx) (st : RState) (pl : ParsedLine) : RState :=
  if optTruthy pl.nick then
    if st.max_nick_width < k.sw ("<" ++ pl.nick.getD "" ++ "> ") k.cfg.font_size then
      { st with
        max_nick_width := min (k.sw ("<" ++ pl.nick.getD "" ++ "> ") k.cfg.font_size) k.nickCap }
    else st
  else st

/-- Worker loop of `draw_wrapped_text`: greedy word fill; emits one
`drawString` per output line and advances the cursor by `font_size * 1.4`
after each. -/
def wrapAux (swF : String → ℚ) (maxW x fs : ℚ) :
    List String → String → ℚ → List Cmd × ℚ
  | [], line, y =>
    if line = "" then ([], y) else ([Cmd.drawString x y line], y - fs * (7/5))
  | w :: ws, line, y =>
    let cand := if line = "" then w else line ++ " " ++ w
    if swF cand ≤ maxW then wrapAux swF maxW x fs ws cand y
    else if line = "" then wrapAux swF maxW x fs ws w y
    else
      let r := wrapAux swF maxW x fs ws w (y - fs * (7/5))
      (Cmd.drawString x y line :: r.1, r.2)

/-- Models `draw_wrapped_text` of pdf.py: returns the emitted commands and the
updated cursor. -/
def draw_wrapped_text (swF : String → ℚ) (text : String) (x y maxW fs : ℚ) :
    List Cmd × ℚ :=
  wrapAux swF maxW x fs (pySplit text) "" y

/-- The scale computed by `_render_inline_image`:
`min(min(msg_w, max_image_width_pt) / iw, max_image_height_pt / ih, 1.0)`. -/
def imageScale (cfg : RenderConfig) (msg_w iw ih : ℚ) : ℚ :=
  min (min (min msg_w cfg.max_image_width_pt / iw) (cfg.max_image_height_pt / ih)) 1

/-- Models `_render_inline_image`.  A fetch or decode failure (and the
`ZeroDivisionError` of a zero-pixel dimension, caught by the `except`) returns
the state unchanged with `none`.  On success: ensure vertical space (note the
source compares the renderer's `self.y`, which is stale during body
rendering), then emit the image and its link region and return the new local
cursor. -/
def renderInlineImage (k : Ctx) (url : String) (x_start y_cur msg_w : ℚ)
    (st : RState) : RState × Option ℚ :=
  match k.fetcher url with
  | none => (st, none)
  | some (iw, ih) =>
    if iw = 0 ∨ ih = 0 then (st, none)
    else
      let fs := k.cfg.font_size
      let scale := imageScale k.cfg msg_w (iw : ℚ) (ih : ℚ)
      let disp_w := (iw : ℚ) * scale
      let disp_h := (ih : ℚ) * scale
      let top_adjust := fs * (3/10)
      let st1 := ensureSpace k (disp_h + fs + top_adjust) st
      let img_bottom := y_cur - disp_h + top_adjust
      ({ st1 with cmds := st1.cmds ++
          [Cmd.drawImage x_start img_bottom disp_w disp_h,
           Cmd.linkURL url x_start img_bottom (x_start + disp_w) (img_bottom + disp_h)] },
       some (img_bottom - fs))

/-- Worker loop of `_render_text_with_inline_images` over the URL-split
tokens, threading the renderer state, the local cursor and the pending text
buffer exactly as the source does. -/
def rtwiAux (k : Ctx) (x_start msg_w : ℚ) :
    List String → RState → ℚ → String → RState × ℚ
  | [], st, y, pending =>
    if pyStrip pending ≠ "" then
      let r := draw_wrapped_text (fun s => k.sw s k.cfg.font_size) pending x_start y
        msg_w k.cfg.font_size
      ({ st with cmds := st.cmds ++ r.1 }, r.2)
    else (st, y)
  | tok :: rest, st, y, pending =>
    if isFullUrl tok && looksLikeImageUrl tok then
      let fp : RState × ℚ × String :=
        if pyStrip pending ≠ "" then
          let r := draw_wrapped_text (fun s => k.sw s k.cfg.font_size) pending x_start y
            msg_w k.cfg.font_size
          ({ st with cmds := st.cmds ++ r.1 }, r.2, "")
        else (st, y, pending)
      match renderInlineImage k tok x_start fp.2.1 msg_w fp.1 with
      | (st2, none) =>
        rtwiAux k x_start msg_w rest st2 fp.2.1
          (fp.2.2 ++ (if fp.2.2 = "" then "" else " ") ++ tok)
      | (st2, some y2) => rtwiAux k x_start msg_w rest st2 y2 fp.2.2
    else
      rtwiAux k x_start msg_w rest st y
        (if pyStrip tok ≠ "" then pending ++ (if pending = "" then "" else " ") ++ pyStrip tok
         else pending ++ tok)

/-- Models `_render_text_with_inline_images`. -/
def renderTextWithInlineImages (k : Ctx) (text : String) (x_start y msg_w : ℚ)
    (st : RState) : RState × ℚ :=
  rtwiAux k x_start msg_w (urlSplit text) st y ""

/-- The timestamp and author/marker segments drawn at the start of a line by
`_render_line`, together with the x position where the body starts.  The
author-less marker is the exact (mojibake) string literal of the source. -/
def lineHeadCmds (k : Ctx) (pl : ParsedLine) (y mnw : ℚ) : List Cmd × ℚ :=
  let fs := k.cfg.font_size
  let tsPart : List Cmd × ℚ :=
    if optTruthy pl.timestamp then
      let ts_text := "[" ++ pl.timestamp.getD "" ++ "] "
      ([Cmd.drawString k.left y ts_text], k.left + k.sw ts_text fs)
    else ([], k.left + k.tsWidth * (2/5))
  let x1 := tsPart.2
  let nickPart : List Cmd × ℚ :=
    if pl.kind = Kind.message ∧ optTruthy pl.nick then
      ([Cmd.drawString x1 y ("<" ++ pl.nick.getD "" ++ "> ")], x1 + mnw)
    else if pl.kind = Kind.action ∧ optTruthy pl.nick then
      ([Cmd.drawString x1 y "* ",
        Cmd.drawString (x1 + k.sw "* " fs) y (pl.nick.getD "" ++ " ")],
       x1 + k.sw "* " fs + mnw)
    else
      ([Cmd.drawString x1 y "â€” "], x1 + k.sw "â€” " fs)
  (tsPart.1 ++ nickPart.1, nickPart.2)

/-- Models `_render_line`: draw the head segments, then render the body with
inline images in the remaining width, then store the body's final cursor. -/
def renderLine (k : Ctx) (pl : ParsedLine) (st : RState) : RState :=
  let lp := lineHeadCmds k pl st.y st.max_nick_width
  let st1 := { st with cmds := st.cmds ++ lp.1 }
  let r := renderTextWithInlineImages k pl.text lp.2 st.y (k.right - lp.2) st1
  { r.1 with y := r.2 }

/-- One iteration of the `render` loop:
`_update_nick_width; _maybe_new_page; _render_line`. -/
def processLine (k : Ctx) (st : RState) (pl : ParsedLine) : RState :=
  renderLine k pl (maybeNewPage k (updateNickWidth k st pl))

/-- Models `PDFRenderer.render`: fold the loop over the classified lines, then
draw the final footer. -/
def render (k : Ctx) (lines : List ParsedLine) : RState :=
  finishPageFooter k (lines.foldl (processLine k) (initState k))

/-- Containment of a command's placement in the content box, as the
specification claims it: anchors inside `[l, r] × [b, t]`, an image's extent
inside the box, a link region inside the box. -/
def cmdInBox (l r b t : ℚ) : Cmd → Bool
  | .drawString x y _ =>
    decide (l ≤ x) && decide (x ≤ r) && decide (b ≤ y) && decide (y ≤ t)
  | .drawRightString x y _ =>
    decide (l ≤ x) && decide (x ≤ r) && decide (b ≤ y) && decide (y ≤ t)
  | .drawImage x y w h =>
    decide (l ≤ x) && decide (x + w ≤ r) && decide (b ≤ y) && decide (y + h ≤ t)
  | .linkURL _ x1 y1 x2 y2 =>
    decide (l ≤ x1) && decide (x2 ≤ r) && decide (b ≤ y1) && decide (y2 ≤ t)
  | .showPage => true

/-- A Courier-style width capability used for concrete instantiations:
0.6 em per character. -/
def swCourier (s : String) (size : ℚ) : ℚ := (s.data.length : ℚ) * size * (3/5)

/-- The default configuration of main.py (A4, font 11, margin 36, image box
360 x 260). -/
def cfgDefault : RenderConfig := ⟨"irc-log", "A4", 11, 36, 360, 260⟩

/-- Default session with the Courier-style widths and a fetcher that always
fails. -/
def kDefault : Ctx := ⟨cfgDefault, swCourier, fun _ => none⟩

/-- A legal but extreme configuration (margin 250 on A4) used to exhibit the
nick-column shrink. -/
def cfgNarrow : RenderConfig := ⟨"irc-log", "A4", 11, 250, 360, 260⟩

/-- Session with the narrow geometry. -/
def kNarrow : Ctx := ⟨cfgNarrow, swCourier, fun _ => none⟩

/-- Property of a drawing command: if it is a right-aligned string (only the
page footer emits one), it sits at `(right, bottom / 2)`. -/
def footerOnly (k : Ctx) (c : Cmd) : Prop :=
  ∀ x y s, c = Cmd.drawRightString x y s → x = k.right ∧ y = k.bottom / 2

/-- Claim C8 (amended): the saturation/value pair chosen by `nick_to_rgb` is
the reduced (0.4, 0.7) exactly when the hue in degrees lies in the closed band
[45, 70] (not the claimed half-open [45, 70)), and (0.55, 0.75) otherwise; the
returned RGB is the hexagonal HSV conversion of that hue and pair. -/
theorem nick_color_band (n : String) :
    nickSV n = (if 45 ≤ 360 * nickHue n ∧ 360 * nickHue n ≤ 70
                then ((2:ℚ)/5, (7:ℚ)/10) else ((11:ℚ)/20, (3:ℚ)/4))
  ∧ nick_to_rgb n = hsvToRgb (nickHue n) (nickSV n).1 (nickSV n).2 := by
  constructor
  · have hiff : (45/360 ≤ nickHue n ∧ nickHue n ≤ 70/360) ↔
        (45 ≤ 360 * nickHue n ∧ 360 * nickHue n ≤ 70) := by
      constructor <;> rintro ⟨h1, h2⟩ <;> constructor <;> linarith
    rw [nickSV]
    by_cases h : 45/360 ≤ nickHue n ∧ nickHue n ≤ 70/360
    · rw [if_pos h, if_pos (hiff.mp h)]
    · rw [if_neg h, if_neg (fun hc => h (hiff.mpr hc))]
  · rfl

/-- Counterexample to claim C8 as stated: the nick "fs" hashes to hue exactly
70 degrees and still receives the reduced pair (0.4, 0.7), not (0.55, 0.75). -/
theorem nick_color_band_boundary_counterexample :
    360 * nickHue "fs" = 70 ∧ nickSV "fs" = ((2:ℚ)/5, (7:ℚ)/10)
  ∧ nickSV "fs" ≠ ((11:ℚ)/20, (3:ℚ)/4) := by
  have hd : djb2 ("fs".data.map pyLowerChar) % 360 = 70 := rfl
  have hh : nickHue "fs" = 70 / 360 := by
    rw [nickHue, hd]; norm_num
  refine ⟨by rw [hh]; norm_num, ?_, ?_⟩
  · rw [nickSV, hh, if_pos (by norm_num)]
  · rw [nickSV, hh, if_pos (by norm_num)]
    intro hcontra
    have h1 := congrArg Prod.fst hcontra
    norm_num at h1

/-- Claim C9: `download_image_bytes` returns `none` on any network error, when
the advertised Content-Length exceeds the cap, and when the actually-read byte
count exceeds the cap; it never returns a truncated prefix of an oversized
response, and a returned body is complete with length at most the cap. -/
theorem download_image_bytes_bounded (maxBytes : Nat) (cl : Option Nat) (body : List Nat) :
    download_image_bytes FetchOutcome.err maxBytes = none
  ∧ (∀ n, cl = some n → maxBytes < n →
      download_image_bytes (FetchOutcome.ok cl body) maxBytes = none)
  ∧ (maxBytes < body.length →
      download_image_bytes (FetchOutcome.ok cl body) maxBytes = none)
  ∧ (∀ d, download_image_bytes (FetchOutcome.ok cl body) maxBytes = some d →
      d.length ≤ maxBytes ∧ d = body) := by
  refine ⟨rfl, ?_, ?_, ?_⟩
  · intro n hcl hlt
    subst hcl
    simp [download_image_bytes, hlt]
  · intro h
    have hlen : (List.take (maxBytes + 1) body).length = maxBytes + 1 := by
      rw [List.length_take]; omega
    cases cl with
    | none => simp [download_image_bytes, hlen]
    | some n =>
      by_cases hn : maxBytes < n
      · simp [download_image_bytes, hn]
      · simp [download_image_bytes, hn, hlen]
  · intro d hd
    have hlen := List.length_take (maxBytes + 1) body
    simp only [download_image_bytes] at hd
    split at hd
    · exact absurd hd (by simp)
    · split at hd
      · exact absurd hd (by simp)
      · rename_i hnot
        rw [hlen] at hnot
        have hble : body.length ≤ maxBytes := by omega
        have htake : List.take (maxBytes + 1) body = body :=
          List.take_of_length_le (by omega)
        rw [htake] at hd
        cases hd
        exact ⟨hble, rfl⟩

/-- Witness for claim C9 at concrete inputs: an oversized advertised length
and an oversized body both yield `none` with cap 5. -/
theorem download_image_bytes_bounded_witness :
    download_image_bytes (FetchOutcome.ok (some 10) [1, 2, 3]) 5 = none
  ∧ download_image_bytes (FetchOutcome.ok none [1, 2, 3, 4, 5, 6]) 5 = none :=
  ⟨(download_image_bytes_bounded 5 (some 10) [1, 2, 3]).2.1 10 rfl (by omega),
   (download_image_bytes_bounded 5 none [1, 2, 3, 4, 5, 6]).2.2.1 (by simp)⟩

/-- Claim C3 (amended): the inline-image scale equals
`min(min(msg_w, max_image_width_pt) / iw, max_image_height_pt / ih, 1)`; it
never exceeds 1, the drawn width fits both the column and the configured max
width, the drawn height fits the configured max height, and the drawn
width/height proportion equals the intrinsic one. -/
theorem image_scale_fits (cfg : RenderConfig) (msg_w iw ih : ℚ)
    (hiw : 0 < iw) (hih : 0 < ih) :
    imageScale cfg msg_w iw ih
      = min (min (min msg_w cfg.max_image_width_pt / iw) (cfg.max_image_height_pt / ih)) 1
  ∧ imageScale cfg msg_w iw ih ≤ 1
  ∧ iw * imageScale cfg msg_w iw ih ≤ min msg_w cfg.max_image_width_pt
  ∧ ih * imageScale cfg msg_w iw ih ≤ cfg.max_image_height_pt
  ∧ (iw * imageScale cfg msg_w iw ih) * ih = (ih * imageScale cfg msg_w iw ih) * iw := by
  refine ⟨rfl, min_le_right _ _, ?_, ?_, by ring⟩
  · have h1 : imageScale cfg msg_w iw ih ≤ min msg_w cfg.max_image_width_pt / iw :=
      le_trans (min_le_left _ _) (min_le_left _ _)
    have h2 := mul_le_mul_of_nonneg_left h1 (le_of_lt hiw)
    calc iw * imageScale cfg msg_w iw ih
        ≤ iw * (min msg_w cfg.max_image_width_pt / iw) := h2
      _ = min msg_w cfg.max_image_width_pt := by field_simp
  · have h1 : imageScale cfg msg_w iw ih ≤ cfg.max_image_height_pt / ih :=
      le_trans (min_le_left _ _) (min_le_right _ _)
    have h2 := mul_le_mul_of_nonneg_left h1 (le_of_lt hih)
    calc ih * imageScale cfg msg_w iw ih
        ≤ ih * (cfg.max_image_height_pt / ih) := h2
      _ = cfg.max_image_height_pt := by field_simp

/-- Counterexample to claim C3 as stated: at msg_w = 400, iw = 400, ih = 10
with the default configuration the code scale is 0.9, but the claimed formula
`min(msg_w / iw, maxH / ih, 1)` gives 1. -/
theorem image_scale_formula_counterexample :
    imageScale cfgDefault 400 400 10 ≠ min (min ((400:ℚ)/400) ((260:ℚ)/10)) 1 := by
  norm_num [imageScale, cfgDefault]

/-- Witness for claim C3 at a concrete 100 x 50 image in a 400 pt column. -/
theorem image_scale_fits_witness :
    (0:ℚ) < 100 ∧ (0:ℚ) < 50 ∧ imageScale cfgDefault 400 100 50 ≤ 1 :=
  ⟨by norm_num, by norm_num,
    (image_scale_fits cfgDefault 400 100 50 (by norm_num) (by norm_num)).2.1⟩

/-- Claim C7 (amended): `_update_nick_width` never decreases the tracked
nick-column width provided the current value does not exceed the cap
`right - left - ts_width - 50`, and the updated value never exceeds
`max(previous, cap)`. -/
theorem update_nick_width_monotone (k : Ctx) (st : RState) (pl : ParsedLine)
    (hcap : st.max_nick_width ≤ k.nickCap) :
    st.max_nick_width ≤ (updateNickWidth k st pl).max_nick_width
  ∧ (updateNickWidth k st pl).max_nick_width ≤ max st.max_nick_width k.nickCap := by
  unfold updateNickWidth
  split_ifs with h1 h2
  · exact ⟨le_min (le_of_lt h2) hcap, le_max_of_le_right (min_le_right _ _)⟩
  · exact ⟨le_refl _, le_max_left _ _⟩
  · exact ⟨le_refl _, le_max_left _ _⟩

/-- Counterexample to claim C7 as stated: with margin 250 on A4 the cap is
negative, so a wide nick shrinks the tracked width below its previous value. -/
theorem update_nick_width_shrinks_counterexample :
    (updateNickWidth kNarrow
        { y := 0, page_num := 1, max_nick_width := swCourier "<nick> " 11, cmds := [] }
        ⟨some "09:15", some "verylongnickname", "hi", Kind.message⟩).max_nick_width
      < swCourier "<nick> " 11 := by
  have h1 : ("<verylongnickname> " : String).data.length = 19 := rfl
  have h2 : ("<nick> " : String).data.length = 7 := rfl
  have h3 : ("[00:00] " : String).data.length = 8 := rfl
  have h4 : optTruthy (some "verylongnickname") = true := rfl
  have hne : ¬ (("A4" : String).data.map pyLowerChar = ("letter" : String).data) := by decide
  have hs : ("<" ++ (some "verylongnickname" : Option String).getD "" ++ "> ")
      = "<verylongnickname> " := rfl
  have hf : cfgNarrow.font_size = 11 := rfl
  have hlt : swCourier "<nick> " 11 < swCourier "<verylongnickname> " 11 := by
    rw [swCourier, swCourier, h1, h2]; norm_num
  simp only [updateNickWidth, h4, if_true, kNarrow, hs, hf, if_pos hlt]
  rw [min_lt_iff]
  right
  simp only [Ctx.nickCap, Ctx.right, Ctx.left, Ctx.tsWidth, Ctx.pageW, kNarrow, cfgNarrow,
    swCourier, h2, h3, if_neg hne]
  norm_num

/-- Witness for claim C7 with the default geometry, where the cap hypothesis
holds and the width indeed does not decrease. -/
theorem update_nick_width_monotone_witness :
    (initState kDefault).max_nick_width ≤ kDefault.nickCap
  ∧ (initState kDefault).max_nick_width
      ≤ (updateNickWidth kDefault (initState kDefault)
          ⟨some "09:15", some "alice", "hi", Kind.message⟩).max_nick_width := by
  have hcap : (initState kDefault).max_nick_width ≤ kDefault.nickCap := by
    have h2 : ("<nick> " : String).data.length = 7 := rfl
    have h3 : ("[00:00] " : String).data.length = 8 := rfl
    have hne : ¬ (("A4" : String).data.map pyLowerChar = ("letter" : String).data) := by decide
    simp only [initState, Ctx.nickCap, Ctx.right, Ctx.left, Ctx.tsWidth, Ctx.pageW,
      kDefault, cfgDefault, swCourier, h2, h3, if_neg hne]
    norm_num
  exact ⟨hcap,
    (update_nick_width_monotone kDefault (initState kDefault)
      ⟨some "09:15", some "alice", "hi", Kind.message⟩ hcap).1⟩

/-- Helper: every result of `parse_line` is one of the five literal record
shapes produced by its match chain. -/
theorem parse_line_shape (s : String) :
    (∃ t n x, parse_line s = ⟨some t, some n, x, Kind.message⟩)
  ∨ (∃ t n x, parse_line s = ⟨some t, some n, x, Kind.action⟩)
  ∨ (∃ x, parse_line s = ⟨none, none, x, Kind.system⟩)
  ∨ (∃ n x, parse_line s = ⟨none, some n, x, Kind.message⟩)
  ∨ parse_line s = ⟨none, none, (rawOf s).asString, Kind.raw⟩ := by
  cases h2 : pat2Match (rawOf s) with
  | some v =>
    obtain ⟨t, n, x⟩ := v
    exact Or.inl ⟨t, n, x, by simp [parse_line, h2]⟩
  | none =>
    cases h1 : pat1Match (rawOf s) with
    | some v =>
      obtain ⟨t, n, x⟩ := v
      exact Or.inl ⟨t, n, x, by simp [parse_line, h2, h1]⟩
    | none =>
      cases h3 : pat3Match (rawOf s) with
      | some v =>
        obtain ⟨t, n, x⟩ := v
        exact Or.inr (Or.inl ⟨t, n, x, by simp [parse_line, h2, h1, h3]⟩)
      | none =>
        cases hs : (sys1Match (rawOf s)).orElse (fun _ => sys2Match (rawOf s)) with
        | some x =>
          exact Or.inr (Or.inr (Or.inl ⟨x, by simp [parse_line, h2, h1, h3, hs]⟩))
        | none =>
          cases hb : bareMatch (rawOf s) with
          | some v =>
            obtain ⟨n, x⟩ := v
            exact Or.inr (Or.inr (Or.inr (Or.inl
              ⟨n, x, by simp [parse_line, h2, h1, h3, hs, hb]⟩)))
          | none =>
            exact Or.inr (Or.inr (Or.inr (Or.inr
              (by simp [parse_line, h2, h1, h3, hs, hb]))))

/-- Claim C10: for every input, Action lines carry both a timestamp and an
author, System and Raw lines carry neither, and Message lines always carry an
author. -/
theorem parse_line_kind_fields (s : String) :
    ((parse_line s).kind = Kind.action →
       (parse_line s).timestamp.isSome ∧ (parse_line s).nick.isSome)
  ∧ ((parse_line s).kind = Kind.system ∨ (parse_line s).kind = Kind.raw →
       (parse_line s).timestamp = none ∧ (parse_line s).nick = none)
  ∧ ((parse_line s).kind = Kind.message → (parse_line s).nick.isSome) := by
  rcases parse_line_shape s with ⟨t, n, x, h⟩ | ⟨t, n, x, h⟩ | ⟨x, h⟩ | ⟨n, x, h⟩ | h <;>
    rw [h] <;>
    exact ⟨by intro hk; simp_all, by intro hk; simp_all, by intro hk; simp_all⟩

/-- Witness for claim C10 on a concrete action line. -/
theorem parse_line_kind_fields_witness :
    (parse_line "10:00 * nick waves").timestamp.isSome
  ∧ (parse_line "10:00 * nick waves").nick.isSome :=
  (parse_line_kind_fields "10:00 * nick waves").1 (by decide)

/-- Claim C1 (amended): `parse_line` tries PATTERN2 (ISO date), PATTERN1
(bracketed time), PATTERN3 (action), then the system-notice patterns
(`PATTERN_SYS1 or PATTERN_SYS2`), and only then the bare `<author>` form;
the first match wins and the remaining patterns are not consulted. -/
theorem parse_line_precedence (s : String) :
    (∀ t n x, pat2Match (rawOf s) = some (t, n, x) →
       parse_line s = ⟨some t, some n, x, Kind.message⟩)
  ∧ (pat2Match (rawOf s) = none →
       ∀ t n x, pat1Match (rawOf s) = some (t, n, x) →
       parse_line s = ⟨some t, some n, x, Kind.message⟩)
  ∧ (pat2Match (rawOf s) = none → pat1Match (rawOf s) = none →
       ∀ t n x, pat3Match (rawOf s) = some (t, n, x) →
       parse_line s = ⟨some t, some n, x, Kind.action⟩)
  ∧ (pat2Match (rawOf s) = none → pat1Match (rawOf s) = none → pat3Match (rawOf s) = none →
       ∀ x, sys1Match (rawOf s) = some x →
       parse_line s = ⟨none, none, x, Kind.system⟩)
  ∧ (pat2Match (rawOf s) = none → pat1Match (rawOf s) = none → pat3Match (rawOf s) = none →
       sys1Match (rawOf s) = none → ∀ x, sys2Match (rawOf s) = some x →
       parse_line s = ⟨none, none, x, Kind.system⟩)
  ∧ (pat2Match (rawOf s) = none → pat1Match (rawOf s) = none → pat3Match (rawOf s) = none →
       sys1Match (rawOf s) = none → sys2Match (rawOf s) = none →
       ∀ n x, bareMatch (rawOf s) = some (n, x) →
       parse_line s = ⟨none, some n, x, Kind.message⟩)
  ∧ (pat2Match (rawOf s) = none → pat1Match (rawOf s) = none → pat3Match (rawOf s) = none →
       sys1Match (rawOf s) = none → sys2Match (rawOf s) = none → bareMatch (rawOf s) = none →
       parse_line s = ⟨none, none, (rawOf s).asString, Kind.raw⟩) := by
  refine ⟨?_, ?_, ?_, ?_, ?_, ?_, ?_⟩
  · intro t n x h2
    simp [parse_line, h2]
  · intro h2 t n x h1
    simp [parse_line, h2, h1]
  · intro h2 h1 t n x h3
    simp [parse_line, h2, h1, h3]
  · intro h2 h1 h3 x h4
    simp [parse_line, h2, h1, h3, h4, Option.orElse]
  · intro h2 h1 h3 h4 x h5
    simp [parse_line, h2, h1, h3, h4, h5, Option.orElse]
  · intro h2 h1 h3 h4 h5 n x hb
    simp [parse_line, h2, h1, h3, h4, h5, hb, Option.orElse]
  · intro h2 h1 h3 h4 h5 hb
    simp [parse_line, h2, h1, h3, h4, h5, hb, Option.orElse]

/-- Witness for claim C1: the system-notice clause applied to the concrete
line "*** bob has joined". -/
theorem parse_line_precedence_witness :
    parse_line "*** bob has joined" = ⟨none, none, "bob has joined", Kind.system⟩ :=
  (parse_line_precedence "*** bob has joined").2.2.2.1 (by decide) (by decide) (by decide)
    "bob has joined" (by decide)

/-- Counterexample to claim C1 as stated: "<-- foo> bar" matches both the
bare `<author>` form and a system-notice marker, and the code classifies it as
System (the claim says the bare form should win and make it a Message). -/
theorem parse_line_bare_vs_system_counterexample :
    parse_line "<-- foo> bar" = ⟨none, none, "foo> bar", Kind.system⟩
  ∧ bareMatch (rawOf "<-- foo> bar") = some ("-- foo", "bar")
  ∧ (parse_line "<-- foo> bar").kind ≠ Kind.message := by
  refine ⟨by decide, by decide, by decide⟩

/-- Helper: every line emitted by the wrap loop either fits the available
width or satisfies the word property of the input words (the accumulator is
empty, fitting, or itself such a word). -/
theorem wrapAux_mem (swF : String → ℚ) (maxW x fs : ℚ) (P : String → Prop) :
    ∀ (ws : List String) (line : String) (y : ℚ),
      (line = "" ∨ swF line ≤ maxW ∨ P line) → (∀ w ∈ ws, P w) →
      ∀ a b t, Cmd.drawString a b t ∈ (wrapAux swF maxW x fs ws line y).1 →
        swF t ≤ maxW ∨ P t := by
  intro ws
  induction ws with
  | nil =>
    intro line y hacc _ a b t hmem
    simp only [wrapAux] at hmem
    split at hmem
    · simp at hmem
    · rename_i hline
      simp only [List.mem_singleton, Cmd.drawString.injEq] at hmem
      obtain ⟨-, -, ht⟩ := hmem
      subst ht
      rcases hacc with h | h | h
      · exact absurd h hline
      · exact Or.inl h
      · exact Or.inr h
  | cons w ws ih =>
    intro line y hacc hws a b t hmem
    have hwP : P w := hws w (List.mem_cons_self w ws)
    have hwsP : ∀ u ∈ ws, P u := fun u hu => hws u (List.mem_cons_of_mem _ hu)
    simp only [wrapAux] at hmem
    by_cases hline : line = ""
    · rw [if_pos hline] at hmem
      by_cases hfits : swF w ≤ maxW
      · rw [if_pos hfits] at hmem
        exact ih _ _ (Or.inr (Or.inl hfits)) hwsP a b t hmem
      · rw [if_neg hfits, if_pos hline] at hmem
        exact ih _ _ (Or.inr (Or.inr hwP)) hwsP a b t hmem
    · rw [if_neg hline] at hmem
      by_cases hfits : swF (line ++ " " ++ w) ≤ maxW
      · rw [if_pos hfits] at hmem
        exact ih _ _ (Or.inr (Or.inl hfits)) hwsP a b t hmem
      · rw [if_neg hfits, if_neg hline] at hmem
        rcases List.mem_cons.mp hmem with heq | hmem2
        · rw [Cmd.drawString.injEq] at heq
          obtain ⟨-, -, ht⟩ := heq
          subst ht
          rcases hacc with h | h | h
          · exact absurd h hline
          · exact Or.inl h
          · exact Or.inr h
        · exact ih _ _ (Or.inr (Or.inr hwP)) hwsP a b t hmem2

/-- Helper: the wrap loop lowers the cursor by `font_size * 1.4` for each
emitted line. -/
theorem wrapAux_y (swF : String → ℚ) (maxW x fs : ℚ) :
    ∀ (ws : List String) (line : String) (y : ℚ),
      (wrapAux swF maxW x fs ws line y).2
        = y - ((wrapAux swF maxW x fs ws line y).1).length * (fs * (7/5)) := by
  intro ws
  induction ws with
  | nil =>
    intro line y
    simp only [wrapAux]
    split
    · simp
    · simp
  | cons w ws ih =>
    intro line y
    simp only [wrapAux]
    by_cases hline : line = ""
    · rw [if_pos hline]
      by_cases hfits : swF w ≤ maxW
      · rw [if_pos hfits]; exact ih _ _
      · rw [if_neg hfits, if_pos hline]; exact ih _ _
    · rw [if_neg hline]
      by_cases hfits : swF (line ++ " " ++ w) ≤ maxW
      · rw [if_pos hfits]; exact ih _ _
      · rw [if_neg hfits, if_neg hline]
        simp only [List.length_cons]
        rw [ih]
        push_cast
        ring

/-- Claim C5: every text line emitted by `draw_wrapped_text` either has
measured width at most the available width or is a single word of the input
placed unsplit; and the final cursor has advanced downward by exactly
`font_size * 1.4` per emitted line. -/
theorem draw_wrapped_text_width_bound (swF : String → ℚ) (text : String) (x y maxW fs : ℚ) :
    (∀ a b t, Cmd.drawString a b t ∈ (draw_wrapped_text swF text x y maxW fs).1 →
       swF t ≤ maxW ∨ t ∈ pySplit text)
  ∧ (draw_wrapped_text swF text x y maxW fs).2
      = y - ((draw_wrapped_text swF text x y maxW fs).1).length * (fs * (7/5)) := by
  constructor
  · intro a b t hmem
    exact wrapAux_mem swF maxW x fs (fun u => u ∈ pySplit text) (pySplit text) "" y
      (Or.inl rfl) (fun w hw => hw) a b t hmem
  · exact wrapAux_y swF maxW x fs (pySplit text) "" y

/-- Witness for claim C5 at a concrete width function and a one-word text. -/
theorem draw_wrapped_text_width_bound_witness :
    (fun _ : String => (0:ℚ)) "word" ≤ 0 ∨ "word" ∈ pySplit "word" :=
  (draw_wrapped_text_width_bound (fun _ => (0:ℚ)) "word" 0 0 0 10).1 0 0 "word"
    (by rw [(rfl : (draw_wrapped_text (fun _ => (0:ℚ)) "word" 0 0 0 10).1
        = [Cmd.drawString 0 0 "word"])]; exact List.mem_singleton_self _)

/-- Helper: a plain text command is vacuously footer-shaped. -/
theorem footerOnly_drawString (k : Ctx) (a b : ℚ) (s : String) :
    footerOnly k (Cmd.drawString a b s) := by
  intro x y t h
  exact absurd h (by simp)

/-- Helper: a page break is vacuously footer-shaped. -/
theorem footerOnly_showPage (k : Ctx) : footerOnly k Cmd.showPage := by
  intro x y t h
  exact absurd h (by simp)

/-- Helper: an image command is vacuously footer-shaped. -/
theorem footerOnly_drawImage (k : Ctx) (a b w h0 : ℚ) :
    footerOnly k (Cmd.drawImage a b w h0) := by
  intro x y t h
  exact absurd h (by simp)

/-- Helper: a link region is vacuously footer-shaped. -/
theorem footerOnly_linkURL (k : Ctx) (u : String) (a b a2 b2 : ℚ) :
    footerOnly k (Cmd.linkURL u a b a2 b2) := by
  intro x y t h
  exact absurd h (by simp)

/-- Helper: the footer command itself sits at `(right, bottom / 2)`. -/
theorem footerOnly_footer (k : Ctx) (s : String) :
    footerOnly k (Cmd.drawRightString k.right (k.bottom / 2) s) := by
  intro x y t h
  rw [Cmd.drawRightString.injEq] at h
  exact ⟨h.1.symm, h.2.1.symm⟩

/-- Helper: the wrap loop emits only `drawString` commands. -/
theorem wrapAux_shape (swF : String → ℚ) (maxW x fs : ℚ) :
    ∀ (ws : List String) (line : String) (y : ℚ),
      ∀ c ∈ (wrapAux swF maxW x fs ws line y).1, ∃ a b t, c = Cmd.drawString a b t := by
  intro ws
  induction ws with
  | nil =>
    intro line y c hmem
    simp only [wrapAux] at hmem
    split at hmem
    · simp at hmem
    · simp only [List.mem_singleton] at hmem
      exact ⟨x, y, line, hmem⟩
  | cons w ws ih =>
    intro line y c hmem
    simp only [wrapAux] at hmem
    by_cases hline : line = ""
    · rw [if_pos hline] at hmem
      by_cases hfits : swF w ≤ maxW
      · rw [if_pos hfits] at hmem; exact ih _ _ c hmem
      · rw [if_neg hfits, if_pos hline] at hmem; exact ih _ _ c hmem
    · rw [if_neg hline] at hmem
      by_cases hfits : swF (line ++ " " ++ w) ≤ maxW
      · rw [if_pos hfits] at hmem; exact ih _ _ c hmem
      · rw [if_neg hfits, if_neg hline] at hmem
        rcases List.mem_cons.mp hmem with heq | hmem2
        · exact ⟨x, y, line, heq⟩
        · exact ih _ _ c hmem2

/-- Helper: `draw_wrapped_text` emits only `drawString` commands. -/
theorem draw_wrapped_text_shape (swF : String → ℚ) (text : String) (x y maxW fs : ℚ) :
    ∀ c ∈ (draw_wrapped_text swF text x y maxW fs).1, ∃ a b t, c = Cmd.drawString a b t :=
  wrapAux_shape swF maxW x fs (pySplit text) "" y

/-- Helper: the footer routine appends exactly the "Page N" command. -/
theorem finishPageFooter_cmds (k : Ctx) (st : RState) :
    (finishPageFooter k st).cmds = st.cmds ++
      [Cmd.drawRightString k.right (k.bottom / 2) ("Page " ++ toString st.page_num)] := rfl

/-- Helper: `_new_page` appends the page break and the new header. -/
theorem newPage_cmds (k : Ctx) (st : RState) :
    (newPage k st).cmds = st.cmds ++ [Cmd.showPage, Cmd.drawString k.left k.top k.cfg.title] := rfl

/-- Helper: `_maybe_new_page` appends only footer-shaped commands. -/
theorem maybeNewPage_cmds (k : Ctx) (st : RState) :
    ∃ d, (maybeNewPage k st).cmds = st.cmds ++ d ∧ ∀ c ∈ d, footerOnly k c := by
  unfold maybeNewPage
  split
  · refine ⟨[Cmd.drawRightString k.right (k.bottom / 2) ("Page " ++ toString st.page_num),
      Cmd.showPage, Cmd.drawString k.left k.top k.cfg.title], ?_, ?_⟩
    · rw [newPage_cmds, finishPageFooter_cmds, List.append_assoc]
      rfl
    · intro c hc
      simp only [List.mem_cons, List.not_mem_nil, or_false] at hc
      rcases hc with h | h | h
      · subst h; exact footerOnly_footer k _
      · subst h; exact footerOnly_showPage k
      · subst h; exact footerOnly_drawString k _ _ _
  · exact ⟨[], by simp, by simp⟩

/-- Helper: `_ensure_space` appends only footer-shaped commands. -/
theorem ensureSpace_cmds (k : Ctx) (hNeeded : ℚ) (st : RState) :
    ∃ d, (ensureSpace k hNeeded st).cmds = st.cmds ++ d ∧ ∀ c ∈ d, footerOnly k c := by
  unfold ensureSpace
  split
  · refine ⟨[Cmd.drawRightString k.right (k.bottom / 2) ("Page " ++ toString st.page_num),
      Cmd.showPage, Cmd.drawString k.left k.top k.cfg.title], ?_, ?_⟩
    · rw [newPage_cmds, finishPageFooter_cmds, List.append_assoc]
      rfl
    · intro c hc
      simp only [List.mem_cons, List.not_mem_nil, or_false] at hc
      rcases hc with h | h | h
      · subst h; exact footerOnly_footer k _
      · subst h; exact footerOnly_showPage k
      · subst h; exact footerOnly_drawString k _ _ _
  · exact ⟨[], by simp, by simp⟩

/-- Helper: `_render_inline_image` appends only footer-shaped commands. -/
theorem renderInlineImage_cmds (k : Ctx) (url : String) (x_start y_cur msg_w : ℚ)
    (st : RState) :
    ∃ d, ((renderInlineImage k url x_start y_cur msg_w st).1).cmds = st.cmds ++ d
      ∧ ∀ c ∈ d, footerOnly k c := by
  unfold renderInlineImage
  cases k.fetcher url with
  | none => exact ⟨[], by simp, by simp⟩
  | some wh =>
    obtain ⟨iw, ih⟩ := wh
    dsimp only
    by_cases hz : iw = 0 ∨ ih = 0
    · rw [if_pos hz]
      exact ⟨[], by simp, by simp⟩
    · rw [if_neg hz]
      obtain ⟨d1, hd1, hall1⟩ := ensureSpace_cmds k
        ((ih : ℚ) * imageScale k.cfg msg_w (iw : ℚ) (ih : ℚ) + k.cfg.font_size
          + k.cfg.font_size * (3/10)) st
      refine ⟨d1 ++
        [Cmd.drawImage x_start
          (y_cur - (ih : ℚ) * imageScale k.cfg msg_w (iw : ℚ) (ih : ℚ) + k.cfg.font_size * (3/10))
          ((iw : ℚ) * imageScale k.cfg msg_w (iw : ℚ) (ih : ℚ))
          ((ih : ℚ) * imageScale k.cfg msg_w (iw : ℚ) (ih : ℚ)),
         Cmd.linkURL url x_start
          (y_cur - (ih : ℚ) * imageScale k.cfg msg_w (iw : ℚ) (ih : ℚ) + k.cfg.font_size * (3/10))
          (x_start + (iw : ℚ) * imageScale k.cfg msg_w (iw : ℚ) (ih : ℚ))
          (y_cur - (ih : ℚ) * imageScale k.cfg msg_w (iw : ℚ) (ih : ℚ) + k.cfg.font_size * (3/10)
            + (ih : ℚ) * imageScale k.cfg msg_w (iw : ℚ) (ih : ℚ))], ?_, ?_⟩
      · simp only [hd1, List.append_assoc]
      · intro c hc
        rcases List.mem_append.mp hc with h | h
        · exact hall1 c h
        · simp only [List.mem_cons, List.not_mem_nil, or_false] at h
          rcases h with h | h
          · subst h; exact footerOnly_drawImage k _ _ _ _
          · subst h; exact footerOnly_linkURL k _ _ _ _ _

/-- Helper: the body-rendering loop appends only footer-shaped commands. -/
theorem rtwiAux_cmds (k : Ctx) (x_start msg_w : ℚ) :
    ∀ (toks : List String) (st : RState) (y : ℚ) (pending : String),
      ∃ d, ((rtwiAux k x_start msg_w toks st y pending).1).cmds = st.cmds ++ d
        ∧ ∀ c ∈ d, footerOnly k c := by
  intro toks
  induction toks with
  | nil =>
    intro st y pending
    simp only [rtwiAux]
    split
    · refine ⟨(draw_wrapped_text (fun s => k.sw s k.cfg.font_size) pending x_start y
        msg_w k.cfg.font_size).1, rfl, ?_⟩
      intro c hc
      obtain ⟨a, b, t, hc⟩ := draw_wrapped_text_shape _ _ _ _ _ _ c hc
      subst hc
      exact footerOnly_drawString k _ _ _
    · exact ⟨[], by simp, by simp⟩
  | cons tok rest ih =>
    intro st y pending
    have hsuff : ∀ (stB : RState) (yB : ℚ) (pB : String) (d0 : List Cmd),
        stB.cmds = st.cmds ++ d0 → (∀ c ∈ d0, footerOnly k c) →
        ∃ d, ((rtwiAux k x_start msg_w rest stB yB pB).1).cmds = st.cmds ++ d
          ∧ ∀ c ∈ d, footerOnly k c := by
      intro stB yB pB d0 h0 hall0
      obtain ⟨d2, hd2, hall2⟩ := ih stB yB pB
      refine ⟨d0 ++ d2, ?_, ?_⟩
      · rw [hd2, h0, List.append_assoc]
      · intro c hc
        rcases List.mem_append.mp hc with hc | hc
        · exact hall0 c hc
        · exact hall2 c hc
    simp only [rtwiAux]
    split
    · by_cases hp : pyStrip pending ≠ ""
      · rw [if_pos hp]
        dsimp only
        set r := draw_wrapped_text (fun s => k.sw s k.cfg.font_size) pending x_start y
          msg_w k.cfg.font_size with hr
        have hallr : ∀ c ∈ r.1, footerOnly k c := by
          intro c hc
          rw [hr] at hc
          obtain ⟨a, b, t, hc⟩ := draw_wrapped_text_shape _ _ _ _ _ _ c hc
          subst hc
          exact footerOnly_drawString k _ _ _
        rcases hri : renderInlineImage k tok x_start r.2 msg_w
            { st with cmds := st.cmds ++ r.1 } with ⟨st2, oy⟩
        obtain ⟨d1, hd1, hall1⟩ := renderInlineImage_cmds k tok x_start r.2 msg_w
          { st with cmds := st.cmds ++ r.1 }
        rw [hri] at hd1
        have hmem : ∀ c ∈ r.1 ++ d1, footerOnly k c := by
          intro c hc
          rcases List.mem_append.mp hc with hc | hc
          · exact hallr c hc
          · exact hall1 c hc
        have hchain : st2.cmds = st.cmds ++ (r.1 ++ d1) := by
          rw [hd1, List.append_assoc]
        cases oy with
        | none =>
          dsimp only
          exact hsuff st2 _ _ (r.1 ++ d1) hchain hmem
        | some y2 =>
          dsimp only
          exact hsuff st2 _ _ (r.1 ++ d1) hchain hmem
      · rw [if_neg hp]
        dsimp only
        rcases hri : renderInlineImage k tok x_start y msg_w st with ⟨st2, oy⟩
        obtain ⟨d1, hd1, hall1⟩ := renderInlineImage_cmds k tok x_start y msg_w st
        rw [hri] at hd1
        cases oy with
        | none =>
          dsimp only
          exact hsuff st2 _ _ d1 hd1 hall1
        | some y2 =>
          dsimp only
          exact hsuff st2 _ _ d1 hd1 hall1
    · exact hsuff st _ _ [] (by simp) (by simp)

/-- Helper: the timestamp/author head segments are plain text commands. -/
theorem lineHeadCmds_shape (k : Ctx) (pl : ParsedLine) (y mnw : ℚ) :
    ∀ c ∈ (lineHeadCmds k pl y mnw).1, ∃ a b t, c = Cmd.drawString a b t := by
  intro c hc
  unfold lineHeadCmds at hc
  dsimp only at hc
  rcases List.mem_append.mp hc with h | h
  · split at h
    · simp only [List.mem_singleton] at h
      exact ⟨_, _, _, h⟩
    · simp at h
  · split at h
    · simp only [List.mem_singleton] at h
      exact ⟨_, _, _, h⟩
    · split at h
      · simp only [List.mem_cons, List.not_mem_nil, or_false] at h
        rcases h with h | h
        · exact ⟨_, _, _, h⟩
        · exact ⟨_, _, _, h⟩
      · simp only [List.mem_singleton] at h
        exact ⟨_, _, _, h⟩

/-- Helper: `_render_line` appends the head segments and then only
footer-shaped commands. -/
theorem renderLine_cmds (k : Ctx) (pl : ParsedLine) (st : RState) :
    ∃ d, (renderLine k pl st).cmds
        = st.cmds ++ (lineHeadCmds k pl st.y st.max_nick_width).1 ++ d
      ∧ ∀ c ∈ d, footerOnly k c := by
  unfold renderLine renderTextWithInlineImages
  dsimp only
  obtain ⟨d, hd, hall⟩ := rtwiAux_cmds k (lineHeadCmds k pl st.y st.max_nick_width).2
    (k.right - (lineHeadCmds k pl st.y st.max_nick_width).2)
    (urlSplit pl.text)
    { st with cmds := st.cmds ++ (lineHeadCmds k pl st.y st.max_nick_width).1 }
    st.y ""
  exact ⟨d, hd, hall⟩

/-- Helper: one loop iteration appends only footer-shaped commands. -/
theorem processLine_cmds (k : Ctx) (st : RState) (pl : ParsedLine) :
    ∃ d, (processLine k st pl).cmds = st.cmds ++ d ∧ ∀ c ∈ d, footerOnly k c := by
  unfold processLine
  have hupd : (updateNickWidth k st pl).cmds = st.cmds := by
    unfold updateNickWidth
    split_ifs <;> rfl
  obtain ⟨d1, hd1, hall1⟩ := maybeNewPage_cmds k (updateNickWidth k st pl)
  obtain ⟨d2, hd2, hall2⟩ := renderLine_cmds k pl (maybeNewPage k (updateNickWidth k st pl))
  refine ⟨d1 ++ ((lineHeadCmds k pl (maybeNewPage k (updateNickWidth k st pl)).y
      (maybeNewPage k (updateNickWidth k st pl)).max_nick_width).1 ++ d2), ?_, ?_⟩
  · rw [hd2, hd1, hupd, List.append_assoc, List.append_assoc]
  · intro c hc
    rcases List.mem_append.mp hc with h | h
    · exact hall1 c h
    · rcases List.mem_append.mp h with h | h
      · obtain ⟨a, b, t, hc2⟩ := lineHeadCmds_shape k pl _ _ c h
        subst hc2
        exact footerOnly_drawString k _ _ _
      · exact hall2 c h

/-- Helper: the render fold preserves footer-shapedness of all commands. -/
theorem foldl_processLine_cmds (k : Ctx) :
    ∀ (lines : List ParsedLine) (st : RState),
      (∀ c ∈ st.cmds, footerOnly k c) →
      ∀ c ∈ (List.foldl (processLine k) st lines).cmds, footerOnly k c := by
  intro lines
  induction lines with
  | nil => intro st h c hc; exact h c hc
  | cons pl rest ih =>
    intro st h
    apply ih
    obtain ⟨d, hd, hall⟩ := processLine_cmds k st pl
    intro c hc
    rw [hd] at hc
    rcases List.mem_append.mp hc with h2 | h2
    · exact h c h2
    · exact hall c h2

/-- Claim C2 (amended): the containment invariant fails in general; what holds
is that every right-aligned string the renderer ever emits is the page footer
at `(right, bottom / 2)`, which lies strictly below the bottom content bound
whenever the margin is positive. -/
theorem render_footer_below_bottom (k : Ctx) (lines : List ParsedLine) :
    (∀ c ∈ (render k lines).cmds, ∀ x y s, c = Cmd.drawRightString x y s →
        x = k.right ∧ y = k.bottom / 2)
  ∧ (0 < k.cfg.margin → k.bottom / 2 < k.bottom) := by
  constructor
  · have hinit : ∀ c ∈ (initState k).cmds, footerOnly k c := by
      intro c hc
      simp only [initState, List.mem_singleton] at hc
      subst hc
      exact footerOnly_drawString k _ _ _
    have hfold := foldl_processLine_cmds k lines (initState k) hinit
    intro c hc
    unfold render at hc
    rw [finishPageFooter_cmds] at hc
    rcases List.mem_append.mp hc with h | h
    · exact hfold c h
    · simp only [List.mem_singleton] at h
      subst h
      exact footerOnly_footer k _
  · intro hm
    have hb : k.bottom = k.cfg.margin := rfl
    rw [hb]
    linarith

/-- Counterexample to claim C2 as stated: rendering an empty stream with the
default configuration emits the page footer at y = 18, below the bottom bound
36, so not every drawing command stays inside [left, right] x [bottom, top]. -/
theorem render_inbox_counterexample :
    ¬ ((render kDefault []).cmds.all
        (cmdInBox kDefault.left kDefault.right kDefault.bottom kDefault.top) = true) := by
  intro hall
  have hc : (render kDefault []).cmds
      = [Cmd.drawString kDefault.left kDefault.top kDefault.cfg.title,
         Cmd.drawRightString kDefault.right (kDefault.bottom / 2)
           ("Page " ++ toString (1:ℕ))] := rfl
  rw [hc] at hall
  have h2 := (List.all_eq_true.mp hall)
    (Cmd.drawRightString kDefault.right (kDefault.bottom / 2) ("Page " ++ toString (1:ℕ)))
    (List.mem_cons_of_mem _ (List.mem_cons_self _ _))
  simp only [cmdInBox, Bool.and_eq_true, decide_eq_true_eq] at h2
  have hnot : ¬ (kDefault.bottom ≤ kDefault.bottom / 2) := by
    norm_num [kDefault, cfgDefault, Ctx.bottom]
  exact hnot h2.1.2

/-- Witness for claim C2: the theorem applied to the default session and the
empty stream, at the concrete footer command it emits. -/
theorem render_footer_below_bottom_witness :
    kDefault.right = kDefault.right ∧ kDefault.bottom / 2 = kDefault.bottom / 2
  ∧ kDefault.bottom / 2 < kDefault.bottom := by
  have hmem : Cmd.drawRightString kDefault.right (kDefault.bottom / 2)
      ("Page " ++ toString (1:ℕ)) ∈ (render kDefault []).cmds := by
    rw [(rfl : (render kDefault []).cmds
      = [Cmd.drawString kDefault.left kDefault.top kDefault.cfg.title,
         Cmd.drawRightString kDefault.right (kDefault.bottom / 2)
           ("Page " ++ toString (1:ℕ))])]
    exact List.mem_cons_of_mem _ (List.mem_cons_self _ _)
  have happ := (render_footer_below_bottom kDefault []).1
    (Cmd.drawRightString kDefault.right (kDefault.bottom / 2) ("Page " ++ toString (1:ℕ)))
    hmem kDefault.right (kDefault.bottom / 2) ("Page " ++ toString (1:ℕ)) rfl
  exact ⟨by rw [happ.1], by rw [happ.2],
    (render_footer_below_bottom kDefault []).2 (by norm_num [kDefault, cfgDefault])⟩

/-- Claim C6: the page-break check runs before each line is placed. -/
theorem page_break_before_line (k : Ctx) (st st1 : RState) (pl : ParsedLine)
    (h1 : st1 = updateNickWidth k st pl) :
    (st1.y < k.bottom + 2 * k.cfg.font_size →
       (maybeNewPage k st1).page_num = st1.page_num + 1
     ∧ (maybeNewPage k st1).y = k.contentTop
     ∧ (maybeNewPage k st1).cmds = st1.cmds ++
         [Cmd.drawRightString k.right (k.bottom / 2) ("Page " ++ toString st1.page_num),
          Cmd.showPage, Cmd.drawString k.left k.top k.cfg.title])
  ∧ (¬ st1.y < k.bottom + 2 * k.cfg.font_size → maybeNewPage k st1 = st1)
  ∧ st1.y = st.y ∧ st1.page_num = st.page_num
  ∧ (∃ body, (processLine k st pl).cmds
       = (maybeNewPage k st1).cmds
         ++ (lineHeadCmds k pl (maybeNewPage k st1).y (maybeNewPage k st1).max_nick_width).1
         ++ body)
  ∧ ∀ c ∈ (lineHeadCmds k pl (maybeNewPage k st1).y (maybeNewPage k st1).max_nick_width).1,
      c ≠ Cmd.showPage := by
  subst h1
  refine ⟨?_, ?_, ?_, ?_, ?_, ?_⟩
  · intro hlt
    unfold maybeNewPage
    rw [if_pos hlt]
    refine ⟨rfl, rfl, ?_⟩
    rw [newPage_cmds, finishPageFooter_cmds, List.append_assoc]
    rfl
  · intro hge
    unfold maybeNewPage
    rw [if_neg hge]
  · unfold updateNickWidth
    split_ifs <;> rfl
  · unfold updateNickWidth
    split_ifs <;> rfl
  · obtain ⟨d, hd, -⟩ := renderLine_cmds k pl (maybeNewPage k (updateNickWidth k st pl))
    exact ⟨d, hd⟩
  · intro c hc heq
    obtain ⟨a, b, t, hshape⟩ := lineHeadCmds_shape k pl _ _ c hc
    rw [hshape] at heq
    exact absurd heq (by simp)

/-- Witness for claim C6 at a concrete state low on the page: the page
counter increments by one and the cursor resets to the top-of-content
baseline. -/
theorem page_break_before_line_witness :
    (maybeNewPage kDefault (updateNickWidth kDefault
        { y := 0, page_num := 1, max_nick_width := 0, cmds := [] }
        ⟨none, none, "x", Kind.raw⟩)).page_num
      = (updateNickWidth kDefault { y := 0, page_num := 1, max_nick_width := 0, cmds := [] }
          ⟨none, none, "x", Kind.raw⟩).page_num + 1
  ∧ (maybeNewPage kDefault (updateNickWidth kDefault
        { y := 0, page_num := 1, max_nick_width := 0, cmds := [] }
        ⟨none, none, "x", Kind.raw⟩)).y = kDefault.contentTop := by
  have h := (page_break_before_line kDefault
      { y := 0, page_num := 1, max_nick_width := 0, cmds := [] }
      (updateNickWidth kDefault { y := 0, page_num := 1, max_nick_width := 0, cmds := [] }
        ⟨none, none, "x", Kind.raw⟩)
      ⟨none, none, "x", Kind.raw⟩ rfl).1
    (by norm_num [updateNickWidth, optTruthy, kDefault, cfgDefault, Ctx.bottom])
  exact ⟨h.1, h.2.1⟩

/-- Claim C4: with a fetcher that always fails, the body
"see https://example.com/cat.png now" renders as the wrapped text "see"
followed by the wrapped text "https://example.com/cat.png now": only plain
text runs, no image and no link region, and the flushed segments joined with
a single space are exactly the literal body. -/
theorem failed_image_renders_as_text (cfg : RenderConfig) (swQ : String → ℚ → ℚ)
    (st : RState) (x y w : ℚ) :
    renderTextWithInlineImages ⟨cfg, swQ, fun _ => none⟩
        "see https://example.com/cat.png now" x y w st
      = ({ st with cmds := st.cmds
            ++ (draw_wrapped_text (fun s => swQ s cfg.font_size) "see" x y w cfg.font_size).1
            ++ (draw_wrapped_text (fun s => swQ s cfg.font_size)
                  "https://example.com/cat.png now" x
                  (draw_wrapped_text (fun s => swQ s cfg.font_size) "see" x y w
                    cfg.font_size).2 w cfg.font_size).1 },
         (draw_wrapped_text (fun s => swQ s cfg.font_size)
            "https://example.com/cat.png now" x
            (draw_wrapped_text (fun s => swQ s cfg.font_size) "see" x y w cfg.font_size).2
            w cfg.font_size).2)
  ∧ (∀ c ∈ (draw_wrapped_text (fun s => swQ s cfg.font_size) "see" x y w cfg.font_size).1
        ++ (draw_wrapped_text (fun s => swQ s cfg.font_size)
              "https://example.com/cat.png now" x
              (draw_wrapped_text (fun s => swQ s cfg.font_size) "see" x y w
                cfg.font_size).2 w cfg.font_size).1,
      ∃ a b t, c = Cmd.drawString a b t)
  ∧ "see" ++ " " ++ "https://example.com/cat.png now"
      = "see https://example.com/cat.png now" := by
  refine ⟨?_, ?_, rfl⟩
  · rfl
  · intro c hc
    rcases List.mem_append.mp hc with h | h
    · exact draw_wrapped_text_shape _ _ _ _ _ _ c h
    · exact draw_wrapped_text_shape _ _ _ _ _ _ c h

/-- Witness for claim C4 at a concrete zero-width session: the first flushed
command is the text "see". -/
theorem failed_image_renders_as_text_witness :
    ∃ a b t, Cmd.drawString (0:ℚ) 0 "see" = Cmd.drawString a b t :=
  (failed_image_renders_as_text cfgDefault (fun _ _ => 0)
      { y := 0, page_num := 1, max_nick_width := 0, cmds := [] } 0 0 0).2.1
    (Cmd.drawString 0 0 "see")
    (List.mem_append_left _
      (by rw [(rfl : (draw_wrapped_text (fun s => (fun _ _ => (0:ℚ)) s cfgDefault.font_size)
            "see" 0 0 0 cfgDefault.font_size).1 = [Cmd.drawString 0 0 "see"])]
          exact List.mem_singleton_self _))
